import Mathlib

/-!
Verification of the COBRA_COMMANDER control-to-output rendering pipeline.

The definitions below are a shallow embedding of the two source files
`COBRA_COMMANDER/venus.py` and `cobra_commander.py`.  Python floats are
modelled as rationals, DMX byte buffers as lists of integers, and Python
list assignment (including negative-index wrap-around) as `pyListSet`.
-/

/-- Round-half-up rounding on rationals.
Modelled from the spec: `utils.py` (imported by `venus.py`) is not part of
the sources; the spec defines the unipolar conversion as `round(v * 255)`
and its reference scenario fixes round-half-up (`-0.5 ↦ magnitude 128`). -/
def roundHalfUp (q : ℚ) : ℤ := ⌊q + 1/2⌋

/-- Modelled from the spec: `utils.unit_float_to_range` is missing from the
sources.  Per the spec's numeric rules, scaling a unit float onto the
integer range `[lo, hi]` is `round(v * (hi - lo)) + lo`, which at the only
call shape used here, `unit_float_to_range 0 255 v`, is `round(v * 255)`. -/
def unit_float_to_range (lo hi : ℤ) (v : ℚ) : ℤ :=
  lo + roundHalfUp (v * ((hi : ℚ) - (lo : ℚ)))

/-- `venus.bipolar_to_dir_and_val`: split a bipolar value into a direction
byte and a magnitude byte. -/
def bipolar_to_dir_and_val (bipolar_val : ℚ) : ℤ × ℤ :=
  if bipolar_val < 0 then
    (0, unit_float_to_range 0 255 |bipolar_val|)
  else
    (255, unit_float_to_range 0 255 bipolar_val)

/-- The fixture state of `venus.Venus`: the five logical axes plus the
stored (0-based) DMX base index. -/
structure Venus where
  dmx_addr : ℤ
  base_rotation : ℚ
  cradle_motion : ℚ
  head_rotation : ℚ
  color_rotation : ℚ
  lamp_on : Bool
  deriving Repr, DecidableEq

/-- `Venus.__init__`: the constructor stores `dmx_addr - 1` and puts all
axes at rest, lamp off. -/
def Venus.init (dmx_addr : ℤ) : Venus :=
  { dmx_addr := dmx_addr - 1
    base_rotation := 0
    cradle_motion := 0
    head_rotation := 0
    color_rotation := 0
    lamp_on := false }

/-- Python list item assignment `l[i] = v`: a negative index counts from
the end of the list; an index out of range (in either direction) raises
`IndexError`, modelled as `none`. -/
def pyListSet (l : List ℤ) (i : ℤ) (v : ℤ) : Option (List ℤ) :=
  let j : ℤ := if i < 0 then (l.length : ℤ) + i else i
  if 0 ≤ j ∧ j < (l.length : ℤ) then some (l.set j.toNat v) else none

/-- The body of `Venus.render`'s final loop:
`for offset, val in enumerate(vals): dmx_univ[dmx_addr+offset] = val`. -/
def writeLoop (buf : List ℤ) (addr : ℤ) : List ℤ → Option (List ℤ)
  | [] => some buf
  | v :: vs => do
      let buf' ← pyListSet buf addr v
      writeLoop buf' (addr + 1) vs

/-- The tuple `vals` computed by `Venus.render` from the fixture state:
the eight bytes in source order. -/
def venusVals (s : Venus) : List ℤ :=
  let bd := bipolar_to_dir_and_val s.base_rotation
  let cradle_val := unit_float_to_range 0 255 s.cradle_motion
  let hd := bipolar_to_dir_and_val s.head_rotation
  let cd := bipolar_to_dir_and_val s.color_rotation
  let lamp_val : ℤ := if s.lamp_on then 255 else 0
  [bd.1, bd.2, cradle_val, hd.1, hd.2, cd.1, cd.2, lamp_val]

/-- `Venus.render`: write the eight bytes of `venusVals` into the DMX
universe at consecutive indices starting at the stored base index. -/
def Venus.render (s : Venus) (dmx_univ : List ℤ) : Option (List ℤ) :=
  writeLoop dmx_univ s.dmx_addr (venusVals s)

/-- The module-level binding in `venus.py`:
`(BaseRotation, CradleMotion, HeadRotation, ColorRotation, LampOn) = range(4)`.
Python tuple unpacking of five targets succeeds exactly when the iterable
yields five elements; otherwise it raises `ValueError` (modelled `none`). -/
def venusControlBinding : Option (ℤ × ℤ × ℤ × ℤ × ℤ) :=
  match (List.range 4).map (Int.ofNat) with
  | [a, b, c, d, e] => some (a, b, c, d, e)
  | _ => none

/-- The five control identifiers of `venus.py`, abstracted as a sum type:
the numeric binding itself fails (see `venusControlBinding`), so the
dispatch table is keyed here by the five names. -/
inductive Control where
  | BaseRotation
  | CradleMotion
  | HeadRotation
  | ColorRotation
  | LampOn
  deriving Repr, DecidableEq

/-- `venus.base_rotation` control action. -/
def base_rotation (venus : Venus) (speed : ℚ) : Venus :=
  { venus with base_rotation := speed }

/-- `venus.cradle_motion` control action. -/
def cradle_motion (venus : Venus) (speed : ℚ) : Venus :=
  { venus with cradle_motion := speed }

/-- `venus.head_rotation` control action. -/
def head_rotation (venus : Venus) (speed : ℚ) : Venus :=
  { venus with head_rotation := speed }

/-- `venus.color_rotation` control action. -/
def color_rotation (venus : Venus) (speed : ℚ) : Venus :=
  { venus with color_rotation := speed }

/-- `venus.lamp_on` control action: off exactly when the value is `0.0`. -/
def lamp_on (venus : Venus) (state : ℚ) : Venus :=
  if state = 0 then { venus with lamp_on := false }
  else { venus with lamp_on := true }

/-- `venus.control_map`: the dispatch table from control identifier to
control action. -/
def control_map : Control → Venus → ℚ → Venus
  | Control.BaseRotation => base_rotation
  | Control.CradleMotion => cradle_motion
  | Control.HeadRotation => head_rotation
  | Control.ColorRotation => color_rotation
  | Control.LampOn => lamp_on

/-- Drain a FIFO list of `(control, value)` events through `control_map`. -/
def applyEvents (s : Venus) (events : List (Control × ℚ)) : Venus :=
  events.foldl (fun st e => control_map e.1 st e.2) s

/-- The value of the last event in a FIFO list that targets control `c`,
if any. -/
def lastTargeting (c : Control) : List (Control × ℚ) → Option ℚ
  | [] => none
  | e :: rest =>
    match lastTargeting c rest with
    | some v => some v
    | none => if e.1 = c then some e.2 else none

/-- All four scalar axes of a fixture state lie within their declared
domains (bipolar in `[-1, 1]`, unipolar in `[0, 1]`). -/
def InDomain (s : Venus) : Prop :=
  -1 ≤ s.base_rotation ∧ s.base_rotation ≤ 1 ∧
  0 ≤ s.cradle_motion ∧ s.cradle_motion ≤ 1 ∧
  -1 ≤ s.head_rotation ∧ s.head_rotation ≤ 1 ∧
  -1 ≤ s.color_rotation ∧ s.color_rotation ≤ 1

/-- An event's value lies within the domain of the axis it targets. -/
def EventInDomain : Control × ℚ → Prop
  | (Control.BaseRotation, v) => -1 ≤ v ∧ v ≤ 1
  | (Control.CradleMotion, v) => 0 ≤ v ∧ v ≤ 1
  | (Control.HeadRotation, v) => -1 ≤ v ∧ v ≤ 1
  | (Control.ColorRotation, v) => -1 ≤ v ∧ v ≤ 1
  | (Control.LampOn, _) => True

/-- Python exception kinds raised by `handle_osc_message`. -/
inductive PyError where
  | typeError
  | unboundLocalError
  deriving Repr, DecidableEq

/-- `logging.log` called with a single positional argument, as both error
branches of `handle_osc_message` do: the stdlib signature is
`log(level, msg, *args)`, so the call itself raises `TypeError` before
anything is written to the log. -/
def logging_log_single (_msg : String) : Except PyError Unit :=
  Except.error PyError.typeError

/-- `OSCController.handle_osc_message`, with the OSC address pre-split on
the slash separator (Python's `addr.split('/')`; an address of the form
slash-group-slash-control yields `["", group, control]`).  The callbacks
registered in `control_groups` are abstracted by the type `H`; on the
success path the source invokes the found callback on the first payload
element, modelled by returning the callback paired with that element.
The failure paths mirror the source exactly: both log via
`logging_log_single` (which raises), and the unknown-control branch lacks
a `return`, so control falls through to the dispatch line where the local
`control` was never bound, raising `UnboundLocalError`. -/
def handle_osc_message {H : Type}
    (control_groups : List (String × List (String × H)))
    (elements : List String) (payload : ℚ) : Except PyError (Option (H × ℚ)) :=
  if elements.length < 3 then Except.ok none
  else
    let group_name := elements[1]!
    let control_name := elements[2]!
    match control_groups.lookup group_name with
    | none =>
      match logging_log_single "Unknown control group" with
      | Except.error e => Except.error e
      | Except.ok _ => Except.ok none
    | some group =>
      match group.lookup control_name with
      | none =>
        match logging_log_single "Unknown control" with
        | Except.error e => Except.error e
        | Except.ok _ => Except.error PyError.unboundLocalError
      | some control => Except.ok (some (control, payload))

lemma pyListSet_of_nonneg {l : List ℤ} {i : ℤ} (v : ℤ)
    (h0 : 0 ≤ i) (h1 : i < (l.length : ℤ)) :
    pyListSet l i v = some (l.set i.toNat v) := by
  simp only [pyListSet]
  rw [if_neg (not_lt.mpr h0), if_pos ⟨h0, h1⟩]

/-- Characterization of the render loop when the written run lies inside
the buffer: the loop succeeds, preserves the length, leaves every index
outside `[addr, addr + vals.length)` unchanged, and stores `vals[k]` at
index `addr + k`. -/
lemma writeLoop_spec (vals : List ℤ) : ∀ (buf : List ℤ) (addr : ℤ),
    0 ≤ addr → addr + vals.length ≤ (buf.length : ℤ) →
    ∃ out, writeLoop buf addr vals = some out ∧
      out.length = buf.length ∧
      (∀ i : ℕ, ((i : ℤ) < addr ∨ addr + vals.length ≤ (i : ℤ)) →
        out[i]? = buf[i]?) ∧
      (∀ k : ℕ, k < vals.length → out[addr.toNat + k]? = vals[k]?) := by
  induction vals with
  | nil =>
    intro buf addr _ _
    exact ⟨buf, rfl, rfl, fun _ _ => rfl, fun k hk => absurd hk (Nat.not_lt_zero k)⟩
  | cons v vs ih =>
    intro buf addr h0 hlen
    have haddr : addr < (buf.length : ℤ) := by
      have : (0 : ℤ) ≤ vs.length := Int.ofNat_nonneg _
      simp only [List.length_cons] at hlen
      push_cast at hlen ⊢
      omega
    have hset : pyListSet buf addr v = some (buf.set addr.toNat v) :=
      pyListSet_of_nonneg v h0 haddr
    have haddrNat : addr.toNat < buf.length := by omega
    obtain ⟨out, hloop, hlen', houtside, hinside⟩ :=
      ih (buf.set addr.toNat v) (addr + 1) (by omega)
        (by simp only [List.length_set]; simp only [List.length_cons] at hlen;
            push_cast at hlen ⊢; omega)
    refine ⟨out, ?_, ?_, ?_, ?_⟩
    · simp only [writeLoop, hset, Option.bind_eq_bind, Option.some_bind]
      exact hloop
    · rw [hlen', List.length_set]
    · intro i hi
      have hne : addr.toNat ≠ i := by
        simp only [List.length_cons] at hi
        push_cast at hi
        omega
      have : out[i]? = (buf.set addr.toNat v)[i]? := by
        apply houtside
        simp only [List.length_cons] at hi
        push_cast at hi ⊢
        omega
      rw [this, List.getElem?_set_ne hne]
    · intro k hk
      match k with
      | 0 =>
        have h1 : out[addr.toNat]? = (buf.set addr.toNat v)[addr.toNat]? := by
          apply houtside
          left
          omega
        rw [Nat.add_zero, h1, List.getElem?_set_self haddrNat,
          List.getElem?_cons_zero]
      | k + 1 =>
        have hk' : k < vs.length := by
          simpa [Nat.succ_lt_succ_iff] using hk
        have harith : addr.toNat + (k + 1) = (addr + 1).toNat + k := by omega
        rw [harith, hinside k hk', List.getElem?_cons_succ]

/-- The eight bytes of a render, named as in the source. -/
lemma venusVals_entries (s : Venus) :
    venusVals s =
      [(bipolar_to_dir_and_val s.base_rotation).1,
       (bipolar_to_dir_and_val s.base_rotation).2,
       unit_float_to_range 0 255 s.cradle_motion,
       (bipolar_to_dir_and_val s.head_rotation).1,
       (bipolar_to_dir_and_val s.head_rotation).2,
       (bipolar_to_dir_and_val s.color_rotation).1,
       (bipolar_to_dir_and_val s.color_rotation).2,
       if s.lamp_on then 255 else 0] := rfl

/-! ### Claims -/

/-- C1: the claim says the module-level tuple assignment binding the five
control identifiers evaluates successfully.  In the source the right-hand
side is `range(4)`, which yields only four values for five targets, so the
binding raises `ValueError` at import time: the model evaluates to `none`. -/
theorem venus_control_binding_fails : venusControlBinding = none := by
  rfl

/-- C2: `bipolar_to_dir_and_val` returns direction `0` and magnitude
`round(|v| * 255)` for `v < 0`, and direction `255` and magnitude
`round(v * 255)` for `v ≥ 0`; in particular `0 ↦ (255, 0)` and
`-1/2 ↦ (0, 128)` under round-half-up. -/
theorem bipolar_to_dir_and_val_spec :
    (∀ v : ℚ, v < 0 → bipolar_to_dir_and_val v = (0, roundHalfUp (|v| * 255))) ∧
    (∀ v : ℚ, 0 ≤ v → bipolar_to_dir_and_val v = (255, roundHalfUp (v * 255))) ∧
    bipolar_to_dir_and_val 0 = (255, 0) ∧
    bipolar_to_dir_and_val (-(1/2)) = (0, 128) := by
  refine ⟨?_, ?_, ?_, ?_⟩
  · intro v hv
    simp [bipolar_to_dir_and_val, unit_float_to_range, hv]
  · intro v hv
    simp [bipolar_to_dir_and_val, unit_float_to_range, not_lt.mpr hv]
  · norm_num [bipolar_to_dir_and_val, unit_float_to_range, roundHalfUp]
  · norm_num [bipolar_to_dir_and_val, unit_float_to_range, roundHalfUp, abs]

/-- C2 witness: the universally quantified parts of
`bipolar_to_dir_and_val_spec` instantiated at `-3/4` and `1/4`. -/
theorem bipolar_to_dir_and_val_spec_witness :
    bipolar_to_dir_and_val (-(3/4)) = (0, roundHalfUp (|(-(3/4) : ℚ)| * 255)) ∧
    bipolar_to_dir_and_val (1/4) = (255, roundHalfUp ((1/4 : ℚ) * 255)) :=
  ⟨bipolar_to_dir_and_val_spec.1 (-(3/4)) (by norm_num),
   bipolar_to_dir_and_val_spec.2.1 (1/4) (by norm_num)⟩

/-- C5: under the in-range hypotheses, `render` succeeds and writes the
eight output bytes in source order starting at the stored base index:
base-direction, base-magnitude, cradle, head-direction, head-magnitude,
color-direction, color-magnitude, lamp; the lamp byte is `255` when the
lamp is on and `0` when off. -/
theorem render_channel_order (s : Venus) (buf : List ℤ)
    (h0 : 0 ≤ s.dmx_addr) (h8 : s.dmx_addr + 8 ≤ (buf.length : ℤ)) :
    ∃ out, s.render buf = some out ∧
      out[s.dmx_addr.toNat]? = some (bipolar_to_dir_and_val s.base_rotation).1 ∧
      out[s.dmx_addr.toNat + 1]? = some (bipolar_to_dir_and_val s.base_rotation).2 ∧
      out[s.dmx_addr.toNat + 2]? = some (unit_float_to_range 0 255 s.cradle_motion) ∧
      out[s.dmx_addr.toNat + 3]? = some (bipolar_to_dir_and_val s.head_rotation).1 ∧
      out[s.dmx_addr.toNat + 4]? = some (bipolar_to_dir_and_val s.head_rotation).2 ∧
      out[s.dmx_addr.toNat + 5]? = some (bipolar_to_dir_and_val s.color_rotation).1 ∧
      out[s.dmx_addr.toNat + 6]? = some (bipolar_to_dir_and_val s.color_rotation).2 ∧
      out[s.dmx_addr.toNat + 7]? = some (if s.lamp_on then (255 : ℤ) else 0) := by
  have hlen : ((venusVals s).length : ℤ) = 8 := by rw [venusVals_entries]; rfl
  obtain ⟨out, hloop, _, _, hinside⟩ :=
    writeLoop_spec (venusVals s) buf s.dmx_addr h0 (by rw [hlen]; exact h8)
  refine ⟨out, hloop, ?_, ?_, ?_, ?_, ?_, ?_, ?_, ?_⟩
  · have := hinside 0 (by rw [venusVals_entries]; norm_num)
    rwa [Nat.add_zero, venusVals_entries] at this
  · exact hinside 1 (by rw [venusVals_entries]; norm_num)
  · exact hinside 2 (by rw [venusVals_entries]; norm_num)
  · exact hinside 3 (by rw [venusVals_entries]; norm_num)
  · exact hinside 4 (by rw [venusVals_entries]; norm_num)
  · exact hinside 5 (by rw [venusVals_entries]; norm_num)
  · exact hinside 6 (by rw [venusVals_entries]; norm_num)
  · exact hinside 7 (by rw [venusVals_entries]; norm_num)

/-- C5 witness: `render_channel_order` applied to the rest-state fixture at
DMX address 1 and an 8-slot buffer. -/
theorem render_channel_order_witness :
    0 ≤ (Venus.init 1).dmx_addr ∧
    (Venus.init 1).dmx_addr + 8 ≤ ((List.replicate 8 (0 : ℤ)).length : ℤ) ∧
    ∃ out, (Venus.init 1).render (List.replicate 8 (0 : ℤ)) = some out ∧
      out[(Venus.init 1).dmx_addr.toNat]? =
        some (bipolar_to_dir_and_val (Venus.init 1).base_rotation).1 ∧
      out[(Venus.init 1).dmx_addr.toNat + 1]? =
        some (bipolar_to_dir_and_val (Venus.init 1).base_rotation).2 ∧
      out[(Venus.init 1).dmx_addr.toNat + 2]? =
        some (unit_float_to_range 0 255 (Venus.init 1).cradle_motion) ∧
      out[(Venus.init 1).dmx_addr.toNat + 3]? =
        some (bipolar_to_dir_and_val (Venus.init 1).head_rotation).1 ∧
      out[(Venus.init 1).dmx_addr.toNat + 4]? =
        some (bipolar_to_dir_and_val (Venus.init 1).head_rotation).2 ∧
      out[(Venus.init 1).dmx_addr.toNat + 5]? =
        some (bipolar_to_dir_and_val (Venus.init 1).color_rotation).1 ∧
      out[(Venus.init 1).dmx_addr.toNat + 6]? =
        some (bipolar_to_dir_and_val (Venus.init 1).color_rotation).2 ∧
      out[(Venus.init 1).dmx_addr.toNat + 7]? =
        some (if (Venus.init 1).lamp_on then (255 : ℤ) else 0) :=
  ⟨by norm_num [Venus.init], by norm_num [Venus.init],
   render_channel_order (Venus.init 1) (List.replicate 8 (0 : ℤ))
     (by norm_num [Venus.init]) (by norm_num [Venus.init])⟩

/-- C6: under the in-range hypotheses, `render` writes every one of the 8
slots of the owned sub-range `[base, base+8)` (each receives the
state-determined byte), writes no slot outside it, preserving the buffer
length and every other slot; consequently a second fixture whose sub-range
is disjoint leaves the first fixture's bytes intact. -/
theorem render_subrange_isolation (s : Venus) (buf : List ℤ)
    (h0 : 0 ≤ s.dmx_addr) (h8 : s.dmx_addr + 8 ≤ (buf.length : ℤ)) :
    ∃ out, s.render buf = some out ∧
      out.length = buf.length ∧
      (∀ k : ℕ, k < 8 → out[s.dmx_addr.toNat + k]? = (venusVals s)[k]?) ∧
      (∀ i : ℕ, ((i : ℤ) < s.dmx_addr ∨ s.dmx_addr + 8 ≤ (i : ℤ)) →
        out[i]? = buf[i]?) ∧
      (∀ s2 : Venus, 0 ≤ s2.dmx_addr → s2.dmx_addr + 8 ≤ (buf.length : ℤ) →
        (s.dmx_addr + 8 ≤ s2.dmx_addr ∨ s2.dmx_addr + 8 ≤ s.dmx_addr) →
        ∃ out2, s2.render out = some out2 ∧
          ∀ k : ℕ, k < 8 →
            out2[s.dmx_addr.toNat + k]? = (venusVals s)[k]?) := by
  have hlen : ((venusVals s).length : ℤ) = 8 := by rw [venusVals_entries]; rfl
  obtain ⟨out, hloop, hl, houtside, hinside⟩ :=
    writeLoop_spec (venusVals s) buf s.dmx_addr h0 (by rw [hlen]; exact h8)
  refine ⟨out, hloop, hl, ?_, ?_, ?_⟩
  · intro k hk
    exact hinside k (by rw [venusVals_entries]; simpa using hk)
  · intro i hi
    exact houtside i (by rw [hlen]; exact hi)
  · intro s2 h20 h28 hdisj
    have hlen2 : ((venusVals s2).length : ℤ) = 8 := by rw [venusVals_entries]; rfl
    obtain ⟨out2, hloop2, _, houtside2, _⟩ :=
      writeLoop_spec (venusVals s2) out s2.dmx_addr h20
        (by rw [hlen2, hl]; exact h28)
    refine ⟨out2, hloop2, ?_⟩
    intro k hk
    have hout : out2[s.dmx_addr.toNat + k]? = out[s.dmx_addr.toNat + k]? := by
      apply houtside2
      rw [hlen2]
      push_cast
      omega
    rw [hout]
    exact hinside k (by rw [venusVals_entries]; simpa using hk)

/-- C6 witness: `render_subrange_isolation` applied to the rest-state
fixture at DMX address 1 with a 16-slot buffer. -/
theorem render_subrange_isolation_witness :
    0 ≤ (Venus.init 1).dmx_addr ∧
    (Venus.init 1).dmx_addr + 8 ≤ ((List.replicate 16 (0 : ℤ)).length : ℤ) ∧
    ∃ out, (Venus.init 1).render (List.replicate 16 (0 : ℤ)) = some out ∧
      out.length = (List.replicate 16 (0 : ℤ)).length ∧
      (∀ k : ℕ, k < 8 →
        out[(Venus.init 1).dmx_addr.toNat + k]? = (venusVals (Venus.init 1))[k]?) ∧
      (∀ i : ℕ, ((i : ℤ) < (Venus.init 1).dmx_addr ∨
          (Venus.init 1).dmx_addr + 8 ≤ (i : ℤ)) →
        out[i]? = (List.replicate 16 (0 : ℤ))[i]?) ∧
      (∀ s2 : Venus, 0 ≤ s2.dmx_addr →
        s2.dmx_addr + 8 ≤ ((List.replicate 16 (0 : ℤ)).length : ℤ) →
        ((Venus.init 1).dmx_addr + 8 ≤ s2.dmx_addr ∨
          s2.dmx_addr + 8 ≤ (Venus.init 1).dmx_addr) →
        ∃ out2, s2.render out = some out2 ∧
          ∀ k : ℕ, k < 8 →
            out2[(Venus.init 1).dmx_addr.toNat + k]? =
              (venusVals (Venus.init 1))[k]?) :=
  ⟨by norm_num [Venus.init], by norm_num [Venus.init],
   render_subrange_isolation (Venus.init 1) (List.replicate 16 (0 : ℤ))
     (by norm_num [Venus.init]) (by norm_num [Venus.init])⟩

/-- C8: `render` is a pure, deterministic function of the fixture state
(the embedding's `render` takes the state read-only and returns only the
buffer, so it cannot modify any state field): rendering the same state
into any two adequate buffers produces byte-identical content in the
owned sub-range, and re-rendering onto an already-rendered buffer leaves
it byte-identical (idempotence). -/
theorem render_deterministic_idempotent (s : Venus) (buf buf2 : List ℤ)
    (h0 : 0 ≤ s.dmx_addr)
    (h8 : s.dmx_addr + 8 ≤ (buf.length : ℤ))
    (h8' : s.dmx_addr + 8 ≤ (buf2.length : ℤ)) :
    ∃ out out2, s.render buf = some out ∧ s.render buf2 = some out2 ∧
      (∀ k : ℕ, k < 8 →
        out[s.dmx_addr.toNat + k]? = out2[s.dmx_addr.toNat + k]?) ∧
      s.render out = some out := by
  have hlen : ((venusVals s).length : ℤ) = 8 := by rw [venusVals_entries]; rfl
  have hlen8 : (venusVals s).length = 8 := by rw [venusVals_entries]; rfl
  obtain ⟨out, hloop, hl, houtside, hinside⟩ :=
    writeLoop_spec (venusVals s) buf s.dmx_addr h0 (by rw [hlen]; exact h8)
  obtain ⟨out2, hloop2, _, _, hinside2⟩ :=
    writeLoop_spec (venusVals s) buf2 s.dmx_addr h0 (by rw [hlen]; exact h8')
  obtain ⟨out3, hloop3, _, houtside3, hinside3⟩ :=
    writeLoop_spec (venusVals s) out s.dmx_addr h0
      (by rw [hlen, hl]; exact h8)
  have hout3 : out3 = out := by
    apply List.ext_getElem?
    intro n
    by_cases hn : (n : ℤ) < s.dmx_addr ∨ s.dmx_addr + 8 ≤ (n : ℤ)
    · exact houtside3 n (by rw [hlen]; exact hn)
    · push_neg at hn
      obtain ⟨hn1, hn2⟩ := hn
      have hk : n = s.dmx_addr.toNat + (n - s.dmx_addr.toNat) := by omega
      have hklt : n - s.dmx_addr.toNat < 8 := by omega
      rw [hk, hinside3 _ (by rw [hlen8]; exact hklt),
        hinside _ (by rw [hlen8]; exact hklt)]
  refine ⟨out, out2, hloop, hloop2, ?_, ?_⟩
  · intro k hk
    rw [hinside k (by rw [hlen8]; exact hk), hinside2 k (by rw [hlen8]; exact hk)]
  · rw [Venus.render, hloop3, hout3]

/-- C8 witness: `render_deterministic_idempotent` applied to the
rest-state fixture at DMX address 1, with an 8-slot and a 12-slot buffer. -/
theorem render_deterministic_idempotent_witness :
    0 ≤ (Venus.init 1).dmx_addr ∧
    (Venus.init 1).dmx_addr + 8 ≤ ((List.replicate 8 (0 : ℤ)).length : ℤ) ∧
    (Venus.init 1).dmx_addr + 8 ≤ ((List.replicate 12 (5 : ℤ)).length : ℤ) ∧
    ∃ out out2, (Venus.init 1).render (List.replicate 8 (0 : ℤ)) = some out ∧
      (Venus.init 1).render (List.replicate 12 (5 : ℤ)) = some out2 ∧
      (∀ k : ℕ, k < 8 →
        out[(Venus.init 1).dmx_addr.toNat + k]? =
          out2[(Venus.init 1).dmx_addr.toNat + k]?) ∧
      (Venus.init 1).render out = some out :=
  ⟨by norm_num [Venus.init], by norm_num [Venus.init], by norm_num [Venus.init],
   render_deterministic_idempotent (Venus.init 1)
     (List.replicate 8 (0 : ℤ)) (List.replicate 12 (5 : ℤ))
     (by norm_num [Venus.init]) (by norm_num [Venus.init])
     (by norm_num [Venus.init])⟩

/-- C9: for every address argument, a freshly constructed fixture has all
axes at rest and the lamp off. -/
theorem venus_init_at_rest (a : ℤ) :
    (Venus.init a).base_rotation = 0 ∧
    (Venus.init a).cradle_motion = 0 ∧
    (Venus.init a).head_rotation = 0 ∧
    (Venus.init a).color_rotation = 0 ∧
    (Venus.init a).lamp_on = false :=
  ⟨rfl, rfl, rfl, rfl, rfl⟩

lemma pyListSet_of_neg {l : List ℤ} {i : ℤ} (v : ℤ)
    (hneg : i < 0) (h0 : 0 ≤ (l.length : ℤ) + i) :
    pyListSet l i v = some (l.set ((l.length : ℤ) + i).toNat v) := by
  simp only [pyListSet]
  rw [if_pos hneg, if_pos ⟨h0, by omega⟩]

/-- The rest-state byte run: direction bytes are `255` (positive split of
zero), all magnitudes are `0`, lamp byte `0`. -/
lemma venusVals_init (a : ℤ) :
    venusVals (Venus.init a) = [255, 0, 0, 255, 0, 255, 0, 0] := by
  norm_num [venusVals, Venus.init, bipolar_to_dir_and_val,
    unit_float_to_range, roundHalfUp]

/-- C10: the constructor is 1-based: `Venus a` stores internal base index
`a - 1`.  Constructing with `a = 0` yields base index `-1`, so the first
write (the base-direction byte, `255` at rest) targets the LAST slot of
the Python list, not slot 0; the remaining seven bytes land in slots
`0..6`, and every other slot is untouched. -/
theorem venus_addr_one_based (a : ℤ) (buf : List ℤ) (h8 : 8 ≤ buf.length) :
    (Venus.init a).dmx_addr = a - 1 ∧
    ∃ out, (Venus.init 0).render buf = some out ∧
      out.length = buf.length ∧
      out[buf.length - 1]? = some 255 ∧
      (∀ k : ℕ, k < 7 → out[k]? = (venusVals (Venus.init 0))[k + 1]?) ∧
      (∀ i : ℕ, 7 ≤ i → i < buf.length - 1 → out[i]? = buf[i]?) := by
  refine ⟨rfl, ?_⟩
  have hv : venusVals (Venus.init 0) = [255, 0, 0, 255, 0, 255, 0, 0] :=
    venusVals_init 0
  have haddr : (Venus.init 0).dmx_addr = -1 := rfl
  have hset : pyListSet buf (-1) 255 =
      some (buf.set ((buf.length : ℤ) + (-1)).toNat 255) :=
    pyListSet_of_neg 255 (by norm_num) (by omega)
  have htoNat : ((buf.length : ℤ) + (-1)).toNat = buf.length - 1 := by omega
  set buf1 := buf.set (buf.length - 1) 255 with hbuf1
  have hlen1 : buf1.length = buf.length := List.length_set ..
  have hlen7 : ([0, 0, 255, 0, 255, 0, 0] : List ℤ).length = 7 := rfl
  obtain ⟨out, hloop, hl, houtside, hinside⟩ :=
    writeLoop_spec [0, 0, 255, 0, 255, 0, 0] buf1 0 le_rfl
      (by rw [hlen1, hlen7]; push_cast; omega)
  have hrender : (Venus.init 0).render buf = some out := by
    rw [Venus.render, haddr, hv]
    simp only [writeLoop, hset, htoNat, Option.bind_eq_bind, Option.some_bind]
    exact hloop
  have hlast : buf.length - 1 < buf.length := by omega
  refine ⟨out, hrender, by rw [hl, hlen1], ?_, ?_, ?_⟩
  · have : out[buf.length - 1]? = buf1[buf.length - 1]? := by
      apply houtside
      right
      rw [hlen7]
      push_cast
      omega
    rw [this, hbuf1, List.getElem?_set_self hlast]
  · intro k hk
    have : out[0 + k]? = ([0, 0, 255, 0, 255, 0, 0] : List ℤ)[k]? := by
      apply hinside
      simpa using hk
    rw [Nat.zero_add] at this
    rw [this, hv, List.getElem?_cons_succ]
  · intro i h7 hi
    have hne : buf.length - 1 ≠ i := by omega
    have : out[i]? = buf1[i]? := by
      apply houtside
      right
      rw [hlen7]
      push_cast
      omega
    rw [this, hbuf1, List.getElem?_set_ne hne]

/-- C10 witness: `venus_addr_one_based` applied at address 5 and a 9-slot
buffer. -/
theorem venus_addr_one_based_witness :
    8 ≤ (List.replicate 9 (3 : ℤ)).length ∧
    ((Venus.init 5).dmx_addr = 5 - 1 ∧
    ∃ out, (Venus.init 0).render (List.replicate 9 (3 : ℤ)) = some out ∧
      out.length = (List.replicate 9 (3 : ℤ)).length ∧
      out[(List.replicate 9 (3 : ℤ)).length - 1]? = some 255 ∧
      (∀ k : ℕ, k < 7 → out[k]? = (venusVals (Venus.init 0))[k + 1]?) ∧
      (∀ i : ℕ, 7 ≤ i → i < (List.replicate 9 (3 : ℤ)).length - 1 →
        out[i]? = (List.replicate 9 (3 : ℤ))[i]?)) :=
  ⟨by norm_num,
   venus_addr_one_based 5 (List.replicate 9 (3 : ℤ)) (by norm_num)⟩

/-- C3: the claim says a message with an unknown group or control name is
logged, dropped, and the handler returns normally so later dispatches
proceed.  In the source both failure paths raise instead (`logging.log`
is called with one positional argument, and the unknown-control branch is
missing a `return` before the dispatch line): evaluated on a table with
group Controls holding control BaseRotation, both bad addresses produce a
raised exception, while a known address dispatches. -/
theorem handle_osc_message_raises :
    handle_osc_message [("Controls", [("BaseRotation", (0 : ℤ))])]
      ["", "Bogus", "X"] 1 = Except.error PyError.typeError ∧
    handle_osc_message [("Controls", [("BaseRotation", (0 : ℤ))])]
      ["", "Controls", "Bogus"] 1 = Except.error PyError.typeError ∧
    handle_osc_message [("Controls", [("BaseRotation", (0 : ℤ))])]
      ["", "Controls", "BaseRotation"] 1 = Except.ok (some ((0 : ℤ), 1)) :=
  ⟨rfl, rfl, rfl⟩

/-- C4 counterexample: one handler invocation with the out-of-range value
`2` on a fresh fixture stores `2` in the bipolar base-rotation axis,
unclamped and outside `[-1, 1]`. -/
theorem control_value_stored_unclamped :
    (control_map Control.BaseRotation (Venus.init 1) 2).base_rotation = 2 ∧
    ¬ ((control_map Control.BaseRotation (Venus.init 1) 2).base_rotation ≤ 1) := by
  refine ⟨rfl, ?_⟩
  show ¬ ((2 : ℚ) ≤ 1)
  norm_num

/-- C4 (amended): the handlers apply no clamping at all — each scalar
handler stores the incoming value verbatim — and consequently axis values
stay within their declared domains only when every incoming event value
lies within the domain of the axis it targets. -/
theorem handlers_no_clamp_in_domain_preserved :
    (∀ (s : Venus) (v : ℚ),
      (control_map Control.BaseRotation s v).base_rotation = v ∧
      (control_map Control.CradleMotion s v).cradle_motion = v ∧
      (control_map Control.HeadRotation s v).head_rotation = v ∧
      (control_map Control.ColorRotation s v).color_rotation = v) ∧
    (∀ (s : Venus) (events : List (Control × ℚ)),
      InDomain s → (∀ e ∈ events, EventInDomain e) →
      InDomain (applyEvents s events)) := by
  constructor
  · intro s v
    exact ⟨rfl, rfl, rfl, rfl⟩
  · intro s events
    induction events generalizing s with
    | nil => intro hs _; exact hs
    | cons e rest ih =>
      intro hs he
      obtain ⟨c, v⟩ := e
      have hev : EventInDomain (c, v) := he _ (List.mem_cons_self _ _)
      have hrest : ∀ x ∈ rest, EventInDomain x :=
        fun x hmem => he x (List.mem_cons_of_mem _ hmem)
      have hfold : applyEvents s ((c, v) :: rest) =
          applyEvents (control_map c s v) rest := rfl
      rw [hfold]
      apply ih _ _ hrest
      obtain ⟨hb1, hb2, hc1, hc2, hh1, hh2, hcol1, hcol2⟩ := hs
      cases c with
      | BaseRotation =>
        obtain ⟨hv1, hv2⟩ := hev
        exact ⟨hv1, hv2, hc1, hc2, hh1, hh2, hcol1, hcol2⟩
      | CradleMotion =>
        obtain ⟨hv1, hv2⟩ := hev
        exact ⟨hb1, hb2, hv1, hv2, hh1, hh2, hcol1, hcol2⟩
      | HeadRotation =>
        obtain ⟨hv1, hv2⟩ := hev
        exact ⟨hb1, hb2, hc1, hc2, hv1, hv2, hcol1, hcol2⟩
      | ColorRotation =>
        obtain ⟨hv1, hv2⟩ := hev
        exact ⟨hb1, hb2, hc1, hc2, hh1, hh2, hv1, hv2⟩
      | LampOn =>
        show InDomain (lamp_on s v)
        simp only [lamp_on]
        split
        · exact ⟨hb1, hb2, hc1, hc2, hh1, hh2, hcol1, hcol2⟩
        · exact ⟨hb1, hb2, hc1, hc2, hh1, hh2, hcol1, hcol2⟩

/-- C4 (amended) witness: the preservation part applied to a fresh
fixture with the single in-domain event `(BaseRotation, 1/2)`. -/
theorem handlers_no_clamp_in_domain_preserved_witness :
    InDomain (Venus.init 1) ∧
    (∀ e ∈ ([(Control.BaseRotation, (1 : ℚ) / 2)] : List (Control × ℚ)),
      EventInDomain e) ∧
    InDomain (applyEvents (Venus.init 1)
      [(Control.BaseRotation, (1 : ℚ) / 2)]) := by
  have h1 : InDomain (Venus.init 1) := by
    norm_num [InDomain, Venus.init]
  have h2 : ∀ e ∈ ([(Control.BaseRotation, (1 : ℚ) / 2)] : List (Control × ℚ)),
      EventInDomain e := by
    intro e hmem
    rw [List.mem_singleton] at hmem
    subst hmem
    norm_num [EventInDomain]
  exact ⟨h1, h2, handlers_no_clamp_in_domain_preserved.2 (Venus.init 1) _ h1 h2⟩

/-- Generic last-write-wins fact about draining events: any state reader
`g` that is written to `interp v` by control `c` and untouched by every
other control ends up holding the interpretation of the last value
targeting `c` (or its starting content when no event targets `c`). -/
lemma applyEvents_getter {α : Type} (g : Venus → α) (c : Control) (interp : ℚ → α)
    (hown : ∀ s v, g (control_map c s v) = interp v)
    (hother : ∀ c' s v, c' ≠ c → g (control_map c' s v) = g s) :
    ∀ (events : List (Control × ℚ)) (s : Venus),
      g (applyEvents s events) =
        match lastTargeting c events with
        | some v => interp v
        | none => g s := by
  intro events
  induction events with
  | nil => intro s; rfl
  | cons e rest ih =>
    intro s
    obtain ⟨c', v⟩ := e
    have hfold : applyEvents s ((c', v) :: rest) =
        applyEvents (control_map c' s v) rest := rfl
    rw [hfold, ih]
    cases hlt : lastTargeting c rest with
    | some w => simp [lastTargeting, hlt]
    | none =>
      by_cases hc : c' = c
      · subst hc
        simp [lastTargeting, hlt, hown]
      · simp [lastTargeting, hlt, hc, hother c' s v hc]

/-- C7: draining a FIFO event list through `control_map` is
last-write-wins per axis: the reference sequence leaves base-rotation at
`3` and cradle-motion at `2`, and in general each axis ends at the value
carried by the last event targeting it (for the lamp, the on/off state
that value induces), or its starting content when no event targets it. -/
theorem control_map_last_write_wins :
    (∀ s : Venus,
      applyEvents s
        [(Control.BaseRotation, 1), (Control.CradleMotion, 2),
         (Control.BaseRotation, 3)] =
        { s with base_rotation := 3, cradle_motion := 2 }) ∧
    (∀ (s : Venus) (events : List (Control × ℚ)),
      (applyEvents s events).base_rotation =
        (match lastTargeting Control.BaseRotation events with
         | some v => v
         | none => s.base_rotation) ∧
      (applyEvents s events).cradle_motion =
        (match lastTargeting Control.CradleMotion events with
         | some v => v
         | none => s.cradle_motion) ∧
      (applyEvents s events).head_rotation =
        (match lastTargeting Control.HeadRotation events with
         | some v => v
         | none => s.head_rotation) ∧
      (applyEvents s events).color_rotation =
        (match lastTargeting Control.ColorRotation events with
         | some v => v
         | none => s.color_rotation) ∧
      (applyEvents s events).lamp_on =
        (match lastTargeting Control.LampOn events with
         | some v => if v = 0 then false else true
         | none => s.lamp_on)) := by
  constructor
  · intro s
    rfl
  · intro s events
    refine ⟨?_, ?_, ?_, ?_, ?_⟩
    · exact applyEvents_getter (fun st => st.base_rotation)
        Control.BaseRotation (fun v => v) (fun s v => rfl)
        (fun c' s v hc => by
          cases c' with
          | BaseRotation => exact absurd rfl hc
          | CradleMotion => rfl
          | HeadRotation => rfl
          | ColorRotation => rfl
          | LampOn =>
            simp only [control_map, lamp_on]
            split <;> rfl)
        events s
    · exact applyEvents_getter (fun st => st.cradle_motion)
        Control.CradleMotion (fun v => v) (fun s v => rfl)
        (fun c' s v hc => by
          cases c' with
          | CradleMotion => exact absurd rfl hc
          | BaseRotation => rfl
          | HeadRotation => rfl
          | ColorRotation => rfl
          | LampOn =>
            simp only [control_map, lamp_on]
            split <;> rfl)
        events s
    · exact applyEvents_getter (fun st => st.head_rotation)
        Control.HeadRotation (fun v => v) (fun s v => rfl)
        (fun c' s v hc => by
          cases c' with
          | HeadRotation => exact absurd rfl hc
          | BaseRotation => rfl
          | CradleMotion => rfl
          | ColorRotation => rfl
          | LampOn =>
            simp only [control_map, lamp_on]
            split <;> rfl)
        events s
    · exact applyEvents_getter (fun st => st.color_rotation)
        Control.ColorRotation (fun v => v) (fun s v => rfl)
        (fun c' s v hc => by
          cases c' with
          | ColorRotation => exact absurd rfl hc
          | BaseRotation => rfl
          | CradleMotion => rfl
          | HeadRotation => rfl
          | LampOn =>
            simp only [control_map, lamp_on]
            split <;> rfl)
        events s
    · exact applyEvents_getter (fun st => st.lamp_on)
        Control.LampOn (fun v => if v = 0 then false else true)
        (fun s v => by
          simp only [control_map, lamp_on]
          split <;> rfl)
        (fun c' s v hc => by
          cases c' with
          | LampOn => exact absurd rfl hc
          | BaseRotation => rfl
          | CradleMotion => rfl
          | HeadRotation => rfl
          | ColorRotation => rfl)
        events s
